import Mathlib

/-!
Shallow embedding of the rag-cli session orchestration engine
(src/rag_cli/main.py): settings store, corpus resolver, indexing
pipeline, and the streaming query/response pipeline, together with
proofs of the specified properties.

External effects are modelled explicitly:
* the on-disk settings file is an `Option DiskFile` value threaded
  through the functions that touch it;
* the filesystem seen by the resolver is a record of the primitives
  the Python code calls (glob, isfile, isdir, walk, abspath);
* the remote service is a record of oracles for upload, vector-store
  creation, batch creation and batch-status polling;
* the streamed response is a list of events carrying a type string,
  mirroring the string dispatch in the Python event loop.
-/

namespace RagCli

/-! ### JSON values stored in the settings dictionary -/

/-- A value stored in the settings JSON object.  The program only ever
stores strings and lists of strings, but a pre-existing file may hold
such values under arbitrary keys. -/
inductive DVal where
  | str (s : String)
  | strList (l : List String)
deriving DecidableEq, Repr

/-- A Python dict with string keys, as an association list with unique
keys (the only kind the json module produces). -/
abbrev Dict := List (String × DVal)

/-- Python dict lookup: `d.get(k)`. -/
def dget (d : Dict) (k : String) : Option DVal :=
  match d with
  | [] => none
  | (k', v) :: rest => if k' = k then some v else dget rest k

/-- Python dict assignment `d[k] = v`: replaces the binding in place if
the key is present, otherwise appends it. -/
def dset (d : Dict) (k : String) (v : DVal) : Dict :=
  match d with
  | [] => [(k, v)]
  | (k', v') :: rest => if k' = k then (k, v) :: rest else (k', v') :: dset rest k v

/-- Python truthiness of an optional dict value: `None`, the empty
string and the empty list are falsy. -/
def truthy : Option DVal → Bool
  | none => false
  | some (.str s) => !s.isEmpty
  | some (.strList l) => !l.isEmpty

/-! ### Settings store (load_settings / save_settings) -/

/-- Contents of the settings file on disk: either a parsable JSON
object or bytes the json module cannot parse. -/
inductive DiskFile where
  | valid (d : Dict)
  | corrupt
deriving DecidableEq, Repr

/-- The error json.load raises on unparsable input. -/
inductive LoadErr where
  | jsonDecodeError
deriving DecidableEq, Repr

/-- `load_settings`: if the settings file exists, parse it with
json.load (which raises on unparsable contents); otherwise return the
empty dict.  The disk is `none` when the file is missing. -/
def load_settings : Option DiskFile → Except LoadErr Dict
  | none => .ok []
  | some (.valid d) => .ok d
  | some .corrupt => .error .jsonDecodeError

/-! ### Corpus resolver (resolve_file_patterns) -/

/-- The SUPPORTED_EXTENSIONS tuple from the source. -/
def SUPPORTED_EXTENSIONS : List String :=
  [ ".txt", ".md", ".pdf", ".doc", ".docx", ".pptx", ".html", ".htm",
    ".json", ".xml", ".csv", ".tsv", ".yaml", ".yml",
    ".py", ".js", ".ts", ".jsx", ".tsx", ".java", ".c", ".cpp", ".h", ".hpp",
    ".cs", ".go", ".rs", ".rb", ".php", ".swift", ".kt", ".scala", ".r",
    ".sh", ".bash", ".zsh", ".ps1", ".bat", ".cmd", ".sql", ".lua", ".pl",
    ".hs", ".elm", ".ex", ".exs", ".clj", ".lisp", ".scm", ".ml", ".fs",
    ".toml", ".ini", ".cfg", ".conf", ".tex", ".rst", ".org", ".adoc" ]

/-- Python `s.lower()`: lower-case every character. -/
def pyLower (s : String) : String := String.mk (s.data.map Char.toLower)

/-- Python `s.endswith(suffix)`: suffix test on the characters. -/
def pyEndsWith (s suffix : String) : Bool := suffix.data.isSuffixOf s.data

/-- `path.lower().endswith(SUPPORTED_EXTENSIONS)` from the source:
true when the lower-cased path ends with any supported extension. -/
def supported (path : String) : Bool :=
  SUPPORTED_EXTENSIONS.any (fun ext => pyEndsWith (pyLower path) ext)

/-- The filesystem primitives the resolver calls, as oracles: `glob`
is glob.glob with recursive=True, `walk` returns the joined file paths
os.walk produces under a directory, in walk order, and `abspath` is
os.path.abspath. -/
structure FS where
  glob : String → List String
  isFile : String → Bool
  isDir : String → Bool
  walk : String → List String
  abspath : String → String

/-- The files contributed by one pattern, before de-duplication: each
glob match that is a file is kept when its extension is supported; a
match that is a directory contributes every supported file under it. -/
def resolveOne (fs : FS) (pattern : String) : List String :=
  (fs.glob pattern).flatMap (fun m =>
    if fs.isFile m then
      if supported m then [m] else []
    else if fs.isDir m then
      (fs.walk m).filter supported
    else [])

/-- The `files` list accumulated over all patterns, before the
de-duplication pass. -/
def rawFiles (fs : FS) (patterns : List String) : List String :=
  patterns.flatMap (resolveOne fs)

/-- The de-duplication loop: keep a file when its absolute path has
not been seen yet. -/
def dedupGo (ab : String → String) (seen : List String) : List String → List String
  | [] => []
  | f :: fs =>
    if ab f ∈ seen then dedupGo ab seen fs
    else f :: dedupGo ab (ab f :: seen) fs

/-- `resolve_file_patterns`: expand every pattern, filter by supported
extension, and remove duplicates by absolute path while preserving
first-seen order. -/
def resolve_file_patterns (fs : FS) (patterns : List String) : List String :=
  dedupGo fs.abspath [] (rawFiles fs patterns)

/-! ### Remote service oracles and the indexing pipeline -/

/-- The remote RAG service, as oracles.  Each call either returns a
result or raises (modelled as an error, which the Python code does not
catch).  `batchStatus n` is the status string returned by the n-th
retrieve call of the polling loop. -/
structure Remote where
  upload : String → Except Unit String
  createVS : Except Unit String
  createBatch : String → List String → Except Unit String
  batchStatus : Nat → String

/-- The upload loop: upload each file in order; an error on any file
propagates out of the pipeline.  Returns the filepaths for which an
upload call was issued, and the collected file ids on success. -/
def uploadAll (rm : Remote) : List String → List String × Option (List String)
  | [] => ([], some [])
  | f :: fs =>
    match rm.upload f with
    | .error _ => ([f], none)
    | .ok fid =>
      let rest := uploadAll rm fs
      (f :: rest.1, rest.2.map (fid :: ·))

/-- The polling loop of create_vector_store, run with fuel: at poll
index k it retrieves the status; "completed" breaks with success,
"failed" exits nonzero, and any other status sleeps one time unit and
polls again.  Returns `some true` / `some false` for the two terminal
statuses (`none` when the fuel runs out first) together with the list
of sleep durations performed, in order. -/
def pollLoop (status : Nat → String) : Nat → Nat → Option Bool × List Nat
  | 0, _ => (none, [])
  | fuel + 1, k =>
    if status k = "completed" then (some true, [])
    else if status k = "failed" then (some false, [])
    else
      let rest := pollLoop status fuel (k + 1)
      (rest.1, 1 :: rest.2)

/-- How one call of create_vector_store ended. -/
inductive CVSResult where
  | ok (vsid : String)
  | exitNonzero
  | raised
  | hang
deriving DecidableEq, Repr

/-- Observable trace of one create_vector_store call: which remote
calls were made, the sleeps performed, and the outcome. -/
structure CVSTrace where
  uploadCalls : List String
  vsCreateCalls : Nat
  batchCreateCalls : Nat
  sleeps : List Nat
  result : CVSResult
deriving DecidableEq, Repr

/-- `create_vector_store`: resolve the patterns, exit nonzero if no
supported file was found (before any remote call), upload the files,
create the vector store, submit the batch, and poll to a terminal
status.  `fuel` bounds the polling loop so the model stays total; a
loop that would still be polling after `fuel` retrievals is reported
as `hang`. -/
def create_vector_store (fs : FS) (rm : Remote) (patterns : List String)
    (fuel : Nat) : CVSTrace :=
  let files := resolve_file_patterns fs patterns
  if files.isEmpty then
    { uploadCalls := [], vsCreateCalls := 0, batchCreateCalls := 0,
      sleeps := [], result := .exitNonzero }
  else
    match uploadAll rm files with
    | (att, none) =>
      { uploadCalls := att, vsCreateCalls := 0, batchCreateCalls := 0,
        sleeps := [], result := .raised }
    | (att, some fileIds) =>
      match rm.createVS with
      | .error _ =>
        { uploadCalls := att, vsCreateCalls := 1, batchCreateCalls := 0,
          sleeps := [], result := .raised }
      | .ok vsid =>
        match rm.createBatch vsid fileIds with
        | .error _ =>
          { uploadCalls := att, vsCreateCalls := 1, batchCreateCalls := 1,
            sleeps := [], result := .raised }
        | .ok _ =>
          match pollLoop rm.batchStatus fuel 0 with
          | (none, sl) =>
            { uploadCalls := att, vsCreateCalls := 1, batchCreateCalls := 1,
              sleeps := sl, result := .hang }
          | (some true, sl) =>
            { uploadCalls := att, vsCreateCalls := 1, batchCreateCalls := 1,
              sleeps := sl, result := .ok vsid }
          | (some false, sl) =>
            { uploadCalls := att, vsCreateCalls := 1, batchCreateCalls := 1,
              sleeps := sl, result := .exitNonzero }

/-! ### load_or_create_settings -/

/-- The command-line arguments the session driver consumes. -/
structure Args where
  files : List String
  reindex : Bool
  strict : Bool
  debug : Bool
  non_interactive : Bool
deriving DecidableEq, Repr

/-- How one call of load_or_create_settings ended. -/
inductive LocsResult where
  | ok (settings : Dict)
  | exitNonzero
  | raised
  | hang
deriving DecidableEq, Repr

/-- Observable trace of one load_or_create_settings call: the settings
file on disk after the call, how many times save_settings ran, the
indexing-pipeline trace when the pipeline was invoked, and the
outcome. -/
structure LocsTrace where
  disk : Option DiskFile
  saveCalls : Nat
  cvs : Option CVSTrace
  result : LocsResult
deriving DecidableEq, Repr

/-- `load_or_create_settings`: load the settings (json.load may raise),
decide whether setup is needed (explicit reindex, or no truthy
vector_store_id), fail fast when indexing is needed without file
patterns, otherwise pick model and reasoning effort (modelled as the
given choices), run the indexing pipeline, and only on its success
store the fresh values into the loaded dict and save it. -/
def load_or_create_settings (args : Args) (disk : Option DiskFile)
    (chosenModel chosenEffort : String) (fs : FS) (rm : Remote)
    (fuel : Nat) : LocsTrace :=
  match load_settings disk with
  | .error _ => { disk := disk, saveCalls := 0, cvs := none, result := .raised }
  | .ok settings =>
    let needs_setup := args.reindex || !truthy (dget settings "vector_store_id")
    if !needs_setup then
      { disk := disk, saveCalls := 0, cvs := none, result := .ok settings }
    else if args.files.isEmpty then
      { disk := disk, saveCalls := 0, cvs := none, result := .exitNonzero }
    else
      let s1 := dset settings "model" (.str chosenModel)
      let s2 := dset s1 "reasoning_effort" (.str chosenEffort)
      let s3 := dset s2 "file_patterns" (.strList args.files)
      let tr := create_vector_store fs rm args.files fuel
      match tr.result with
      | .ok vsid =>
        let s4 := dset s3 "vector_store_id" (.str vsid)
        { disk := some (.valid s4), saveCalls := 1, cvs := some tr, result := .ok s4 }
      | .exitNonzero =>
        { disk := disk, saveCalls := 0, cvs := some tr, result := .exitNonzero }
      | .raised =>
        { disk := disk, saveCalls := 0, cvs := some tr, result := .raised }
      | .hang =>
        { disk := disk, saveCalls := 0, cvs := some tr, result := .hang }

/-! ### Conversation engine (process_query) -/

/-- One message of the conversation history. -/
structure Message where
  role : String
  content : String
deriving DecidableEq, Repr

/-- One streamed response event, carrying the type string the Python
loop dispatches on and the payload fields it reads. -/
structure Event where
  type : String
  delta : String
deriving DecidableEq, Repr

/-- The block the transcript logger appends for one entry. -/
def logBlock (role text : String) : String :=
  "## " ++ role.toUpper ++ "\n" ++ text ++ "\n\n"

/-- One observable action of process_query, in program order. -/
inductive PQAction where
  | appendConv (role content : String)
  | writeLog (role content : String)
  | issueRequest
  | emitDelta (s : String)
deriving DecidableEq, Repr

/-- State of the event loop: streamed text fragments, retained
retrieved chunks, actions performed so far. -/
structure LoopAcc where
  streamed : List String
  retrieved : List Event
  actions : List PQAction
deriving DecidableEq, Repr

/-- One iteration of the event loop: a text delta is surfaced to the
output sink and appended to the buffer; a file-search result is
retained only when debug mode is on; every other event is ignored. -/
def stepEvent (debug : Bool) (acc : LoopAcc) (e : Event) : LoopAcc :=
  if e.type = "response.output_text.delta" then
    { acc with streamed := acc.streamed ++ [e.delta],
               actions := acc.actions ++ [.emitDelta e.delta] }
  else if e.type = "response.file_search.result" && debug then
    { acc with retrieved := acc.retrieved ++ [e] }
  else acc

/-- Result of one process_query call: the returned pair, the updated
conversation, the transcript file contents, and the action trace. -/
structure PQResult where
  final_answer : String
  retrieved_chunks : List Event
  conversation : List Message
  logFile : String
  trace : List PQAction
deriving DecidableEq, Repr

/-- `process_query`: append the user message to the conversation and
the transcript, issue the streaming request, consume the events in
arrival order, then on channel close join the buffered deltas into the
final answer, append it as an assistant message and transcript entry,
and return it with the retained chunks. -/
def process_query (debug : Bool) (conv : List Message) (logF : String)
    (events : List Event) (user_input : String) : PQResult :=
  let conv1 := conv ++ [⟨"user", user_input⟩]
  let log1 := logF ++ logBlock "user" user_input
  let pre : List PQAction :=
    [.appendConv "user" user_input, .writeLog "user" user_input, .issueRequest]
  let acc := events.foldl (stepEvent debug) ⟨[], [], []⟩
  let final := String.join acc.streamed
  { final_answer := final
    retrieved_chunks := acc.retrieved
    conversation := conv1 ++ [⟨"assistant", final⟩]
    logFile := log1 ++ logBlock "assistant" final
    trace := pre ++ acc.actions ++
      [.appendConv "assistant" final, .writeLog "assistant" final] }

/-- The text-delta payloads of an event list, in delivery order. -/
def deltasOf (events : List Event) : List String :=
  events.filterMap (fun e =>
    if e.type = "response.output_text.delta" then some e.delta else none)

/-! ### Concrete scenarios used to instantiate the theorems -/

/-- A filesystem with a single supported file a.md. -/
def fsA : FS :=
  { glob := fun p => if p = "a.md" then ["a.md"] else []
    isFile := fun m => m = "a.md"
    isDir := fun _ => false
    walk := fun _ => []
    abspath := fun s => "/home/user/" ++ s }

/-- A filesystem where no pattern matches anything. -/
def fsNone : FS :=
  { glob := fun _ => []
    isFile := fun _ => false
    isDir := fun _ => false
    walk := fun _ => []
    abspath := fun s => s }

/-- A remote service where every call succeeds and the batch completes
on the first poll. -/
def rmOK : Remote :=
  { upload := fun f => .ok ("file-" ++ f)
    createVS := .ok "vs_1"
    createBatch := fun _ _ => .ok "batch_1"
    batchStatus := fun _ => "completed" }

/-- A remote service where the first upload raises. -/
def rmFail : Remote :=
  { upload := fun _ => .error ()
    createVS := .error ()
    createBatch := fun _ _ => .error ()
    batchStatus := fun _ => "failed" }

/-- Arguments forcing a reindex of a.md. -/
def argsA : Args :=
  { files := ["a.md"], reindex := true, strict := false, debug := false,
    non_interactive := false }

/-- Arguments forcing a reindex of a file that does not exist. -/
def argsMissing : Args :=
  { files := ["missing.md"], reindex := true, strict := false, debug := false,
    non_interactive := false }

/-- A pre-existing settings file holding a key this program never
writes. -/
def diskLegacy : Option DiskFile := some (.valid [("legacy", DVal.str "x")])

/-- A batch status sequence pending, pending, completed. -/
def statusPPC : Nat → String := fun k => if k < 2 then "pending" else "completed"

/-! ### Resolver lemmas -/

theorem dedupGo_sublist (ab : String → String) (seen : List String) (l : List String) :
    (dedupGo ab seen l).Sublist l := by
  induction l generalizing seen with
  | nil => simp [dedupGo]
  | cons f l ih =>
    simp only [dedupGo]
    split
    · exact (ih seen).cons f
    · exact (ih (ab f :: seen)).cons₂ f

theorem dedupGo_key_not_seen (ab : String → String) (seen : List String)
    (l : List String) : ∀ g ∈ dedupGo ab seen l, ab g ∉ seen := by
  induction l generalizing seen with
  | nil => simp [dedupGo]
  | cons f l ih =>
    simp only [dedupGo]
    split
    · exact ih seen
    · intro g hg
      rcases List.mem_cons.mp hg with h | h
      · subst h; assumption
      · have := ih (ab f :: seen) g h
        exact fun hs => this (List.mem_cons_of_mem _ hs)

theorem dedupGo_map_nodup (ab : String → String) (seen : List String)
    (l : List String) : ((dedupGo ab seen l).map ab).Nodup := by
  induction l generalizing seen with
  | nil => simp [dedupGo]
  | cons f l ih =>
    simp only [dedupGo]
    split
    · exact ih seen
    · refine List.nodup_cons.mpr ⟨?_, ih (ab f :: seen)⟩
      intro hmem
      rcases List.mem_map.mp hmem with ⟨g, hg, hab⟩
      exact dedupGo_key_not_seen ab _ l g hg (hab ▸ List.mem_cons_self _ _)

theorem mem_dedupGo_key (ab : String → String) (l : List String) (f : String) :
    ∀ seen, f ∈ l → ab f ∉ seen → ∃ g ∈ dedupGo ab seen l, ab g = ab f := by
  induction l with
  | nil => intro seen hf; cases hf
  | cons a l ih =>
    intro seen hf hs
    simp only [dedupGo]
    split
    · rcases List.mem_cons.mp hf with h | h
      · subst h; exact absurd (by assumption) hs
      · exact ih seen h hs
    · by_cases hfa : ab f = ab a
      · exact ⟨a, List.mem_cons_self _ _, hfa.symm⟩
      · have hfl : f ∈ l := by
          rcases List.mem_cons.mp hf with h | h
          · subst h; exact absurd rfl hfa
          · exact h
        have hs' : ab f ∉ ab a :: seen := by
          intro h
          rcases List.mem_cons.mp h with h | h
          · exact hfa h
          · exact hs h
        obtain ⟨g, hg, hab⟩ := ih (ab a :: seen) hfl hs'
        exact ⟨g, List.mem_cons_of_mem _ hg, hab⟩

theorem dedupGo_first_mem (ab : String → String) (f : String) (l₂ : List String) :
    ∀ (l₁ : List String) (seen : List String),
      (∀ g ∈ l₁, ab g ≠ ab f) → ab f ∉ seen →
      f ∈ dedupGo ab seen (l₁ ++ f :: l₂) := by
  intro l₁
  induction l₁ with
  | nil =>
    intro seen _ hs
    rw [List.nil_append]
    simp only [dedupGo]
    rw [if_neg hs]
    exact List.mem_cons_self _ _
  | cons g l₁ ih =>
    intro seen hne hs
    simp only [List.cons_append, dedupGo]
    split
    · exact ih seen (fun x hx => hne x (List.mem_cons_of_mem _ hx)) hs
    · refine List.mem_cons_of_mem _ (ih (ab g :: seen) ?_ ?_)
      · exact fun x hx => hne x (List.mem_cons_of_mem _ hx)
      · intro h
        rcases List.mem_cons.mp h with h | h
        · exact hne g (List.mem_cons_self _ _) h.symm
        · exact hs h

theorem mem_resolveOne_supported (fs : FS) (p : String) :
    ∀ f ∈ resolveOne fs p, supported f = true := by
  intro f hf
  simp only [resolveOne, List.mem_flatMap] at hf
  obtain ⟨m, _, hf⟩ := hf
  by_cases h1 : fs.isFile m
  · by_cases h2 : supported m
    · simp [h1, h2] at hf
      subst hf; exact h2
    · simp [h1, h2] at hf
  · by_cases h3 : fs.isDir m
    · simp [h1, h3] at hf
      exact hf.2
    · simp [h1, h3] at hf

theorem mem_rawFiles_supported (fs : FS) (ps : List String) :
    ∀ f ∈ rawFiles fs ps, supported f = true := by
  intro f hf
  simp only [rawFiles, List.mem_flatMap] at hf
  obtain ⟨p, _, hf⟩ := hf
  exact mem_resolveOne_supported fs p f hf

/-- C7: given overlapping patterns matching the same file, the resolver
returns that file exactly once, at the position of its first match: the
returned list has pairwise-distinct absolute paths, is a sublist of the
pre-deduplication file list (so relative order is the raw match order),
every matched file is represented by exactly one entry with its
absolute path, and the entry kept for each absolute path is the first
raw occurrence of that path. -/
theorem resolve_file_patterns_dedup_first (fs : FS) (ps : List String) :
    ((resolve_file_patterns fs ps).map fs.abspath).Nodup ∧
    (resolve_file_patterns fs ps).Sublist (rawFiles fs ps) ∧
    (∀ f ∈ rawFiles fs ps,
      ∃ g ∈ resolve_file_patterns fs ps, fs.abspath g = fs.abspath f) ∧
    (∀ (l₁ : List String) (f : String) (l₂ : List String),
      rawFiles fs ps = l₁ ++ f :: l₂ →
      (∀ g ∈ l₁, fs.abspath g ≠ fs.abspath f) →
      f ∈ resolve_file_patterns fs ps) := by
  refine ⟨dedupGo_map_nodup _ _ _, dedupGo_sublist _ _ _, ?_, ?_⟩
  · intro f hf
    exact mem_dedupGo_key fs.abspath _ f [] hf (by simp)
  · intro l₁ f l₂ hraw hne
    unfold resolve_file_patterns
    rw [hraw]
    exact dedupGo_first_mem fs.abspath f l₂ l₁ [] hne (by simp)

/-- C10: every path returned by the resolver ends, after lowercasing,
with one of the supported extensions (the filter is case-insensitive,
accepting for example "README.MD"), and the returned list contains no
two entries with the same absolute path. -/
theorem resolve_file_patterns_supported_nodup (fs : FS) (ps : List String) :
    (∀ f ∈ resolve_file_patterns fs ps,
      ∃ ext ∈ SUPPORTED_EXTENSIONS, pyEndsWith (pyLower f) ext = true) ∧
    supported "README.MD" = true ∧
    ((resolve_file_patterns fs ps).map fs.abspath).Nodup := by
  refine ⟨?_, by decide, dedupGo_map_nodup _ _ _⟩
  intro f hf
  have hraw : f ∈ rawFiles fs ps :=
    (dedupGo_sublist fs.abspath [] (rawFiles fs ps)).mem hf
  have := mem_rawFiles_supported fs ps f hraw
  exact List.any_eq_true.mp this

/-! ### Conversation-engine lemmas -/

theorem foldl_stepEvent_streamed (debug : Bool) (events : List Event) :
    ∀ acc : LoopAcc,
      (events.foldl (stepEvent debug) acc).streamed = acc.streamed ++ deltasOf events := by
  induction events with
  | nil => intro acc; simp [deltasOf]
  | cons e es ih =>
    intro acc
    rw [List.foldl_cons, ih]
    by_cases h : e.type = "response.output_text.delta"
    · simp [stepEvent, deltasOf, h]
    · by_cases h2 : e.type = "response.file_search.result" && debug
      · simp [stepEvent, deltasOf, h, h2]
      · simp [stepEvent, deltasOf, h, h2]

theorem foldl_stepEvent_actions (debug : Bool) (events : List Event) :
    ∀ acc : LoopAcc,
      (events.foldl (stepEvent debug) acc).actions =
        acc.actions ++ (deltasOf events).map PQAction.emitDelta := by
  induction events with
  | nil => intro acc; simp [deltasOf]
  | cons e es ih =>
    intro acc
    rw [List.foldl_cons, ih]
    by_cases h : e.type = "response.output_text.delta"
    · simp [stepEvent, deltasOf, h]
    · by_cases h2 : e.type = "response.file_search.result" && debug
      · simp [stepEvent, deltasOf, h, h2]
      · simp [stepEvent, deltasOf, h, h2]

theorem foldl_stepEvent_retrieved_false (events : List Event) :
    ∀ acc : LoopAcc,
      (events.foldl (stepEvent false) acc).retrieved = acc.retrieved := by
  induction events with
  | nil => intro acc; rfl
  | cons e es ih =>
    intro acc
    rw [List.foldl_cons, ih]
    by_cases h : e.type = "response.output_text.delta"
    · simp [stepEvent, h]
    · simp [stepEvent, h]

/-- C1: for every finite event stream, the final answer process_query
appends to the conversation, writes to the transcript, and returns is
the concatenation of the text-delta payloads in delivery order. -/
theorem process_query_order_preservation (debug : Bool) (conv : List Message)
    (logF : String) (events : List Event) (u : String) :
    (process_query debug conv logF events u).final_answer =
      String.join (deltasOf events) ∧
    (process_query debug conv logF events u).conversation =
      conv ++ [⟨"user", u⟩, ⟨"assistant", String.join (deltasOf events)⟩] ∧
    (process_query debug conv logF events u).logFile =
      logF ++ logBlock "user" u ++ logBlock "assistant" (String.join (deltasOf events)) := by
  have hs := foldl_stepEvent_streamed debug events ⟨[], [], []⟩
  simp only at hs
  refine ⟨?_, ?_, ?_⟩
  · simp [process_query, hs]
  · simp [process_query, hs]
  · simp [process_query, hs, String.append_assoc]

/-- C4: with debug disabled, process_query returns an empty
retrieved-chunk list regardless of the file-search result events the
stream emits. -/
theorem process_query_debug_gating (conv : List Message) (logF : String)
    (events : List Event) (u : String) :
    (process_query false conv logF events u).retrieved_chunks = [] := by
  have hr := foldl_stepEvent_retrieved_false events ⟨[], [], []⟩
  simp only at hr
  simp [process_query, hr]

/-- C8: in every turn, the user message is appended to the
conversation and written to the transcript strictly before the remote
generation request is issued: the first three actions of the trace are
exactly those, and no later action issues a request. -/
theorem process_query_user_before_request (debug : Bool) (conv : List Message)
    (logF : String) (events : List Event) (u : String) :
    (process_query debug conv logF events u).trace.take 3 =
      [.appendConv "user" u, .writeLog "user" u, .issueRequest] ∧
    ∀ a ∈ (process_query debug conv logF events u).trace.drop 3,
      a ≠ PQAction.issueRequest := by
  have ha := foldl_stepEvent_actions debug events ⟨[], [], []⟩
  simp only at ha
  constructor
  · simp [process_query]
  · intro a hmem
    simp only [process_query, ha] at hmem
    simp only [List.nil_append, List.cons_append, List.drop_succ_cons,
      List.drop_zero, List.mem_append, List.mem_map, List.mem_cons,
      List.mem_singleton] at hmem
    rcases hmem with ⟨s, _, rfl⟩ | h | h | h
    · intro h; cases h
    · subst h; intro h; cases h
    · subst h; intro h; cases h
    · cases h

/-! ### Pipeline lemmas -/

theorem pollLoop_sleeps_one (st : Nat → String) :
    ∀ (f k : Nat), ∀ n ∈ (pollLoop st f k).2, n = 1 := by
  intro f
  induction f with
  | zero => intro k n hn; simp [pollLoop] at hn
  | succ f ih =>
    intro k n hn
    simp only [pollLoop] at hn
    split at hn
    · simp at hn
    · split at hn
      · simp at hn
      · rcases List.mem_cons.mp hn with h | h
        · exact h
        · exact ih (k + 1) n h

theorem pollLoop_pending_pending_completed (st : Nat → String) (fuel : Nat)
    (h0 : st 0 = "pending") (h1 : st 1 = "pending") (h2 : st 2 = "completed")
    (hfuel : 3 ≤ fuel) : pollLoop st fuel 0 = (some true, [1, 1]) := by
  obtain ⟨f3, rfl⟩ : ∃ f3, fuel = f3 + 3 := ⟨fuel - 3, by omega⟩
  show pollLoop st (f3 + 3) 0 = (some true, [1, 1])
  have e3 : f3 + 3 = (f3 + 2) + 1 := by omega
  have e2 : f3 + 2 = (f3 + 1) + 1 := by omega
  rw [e3, pollLoop, h0]
  simp only [reduceCtorEq, String.reduceEq, if_false]
  rw [e2, pollLoop, h1]
  simp only [reduceCtorEq, String.reduceEq, if_false]
  rw [pollLoop, h2]
  simp

theorem cvs_result_ok_poll (fs : FS) (rm : Remote) (ps : List String)
    (fuel : Nat) (v : String)
    (h : (create_vector_store fs rm ps fuel).result = CVSResult.ok v) :
    (pollLoop rm.batchStatus fuel 0).1 = some true := by
  unfold create_vector_store at h
  simp only at h
  split at h
  · cases h
  · split at h
    · cases h
    · split at h
      · cases h
      · split at h
        · cases h
        · rename_i heq
          split at h
          · cases h
          · rename_i hpoll
            rw [hpoll]
          · cases h

theorem locs_pipeline_fail (args : Args) (disk : Option DiskFile) (m e : String)
    (fs : FS) (rm : Remote) (fuel : Nat)
    (h : ∀ v, (create_vector_store fs rm args.files fuel).result ≠ CVSResult.ok v) :
    (load_or_create_settings args disk m e fs rm fuel).disk = disk ∧
    (load_or_create_settings args disk m e fs rm fuel).saveCalls = 0 := by
  unfold load_or_create_settings
  rcases disk with _ | df
  · simp only [load_settings]
    split
    · simp
    · split
      · simp
      · split
        · exact absurd (by assumption) (h _)
        · simp
        · simp
        · simp
  · rcases df with d | _
    · simp only [load_settings]
      split
      · simp
      · split
        · simp
        · split
          · exact absurd (by assumption) (h _)
          · simp
          · simp
          · simp
    · simp [load_settings]

theorem locs_cvs_invoked (args : Args) (disk : Option DiskFile) (m e : String)
    (fs : FS) (rm : Remote) (fuel : Nat) (c : CVSTrace)
    (hc : (load_or_create_settings args disk m e fs rm fuel).cvs = some c) :
    c = create_vector_store fs rm args.files fuel := by
  unfold load_or_create_settings at hc
  rcases disk with _ | df
  · simp only [load_settings] at hc
    split at hc
    · cases hc
    · split at hc
      · cases hc
      · split at hc <;> exact (Option.some.inj hc).symm
  · rcases df with d | _
    · simp only [load_settings] at hc
      split at hc
      · cases hc
      · split at hc
        · cases hc
        · split at hc <;> exact (Option.some.inj hc).symm
    · simp [load_settings] at hc

/-- C2: whenever the indexing pipeline was invoked and did not return
successfully (empty resolution, upload failure, index creation or
batch failure, terminal failed status, or a hung poll), the settings
file on disk after the attempt equals the settings file before it, and
save_settings was never called. -/
theorem indexing_failure_settings_atomic (args : Args) (disk : Option DiskFile)
    (m e : String) (fs : FS) (rm : Remote) (fuel : Nat) (c : CVSTrace)
    (hc : (load_or_create_settings args disk m e fs rm fuel).cvs = some c)
    (hfail : ∀ v, c.result ≠ CVSResult.ok v) :
    (load_or_create_settings args disk m e fs rm fuel).disk = disk ∧
    (load_or_create_settings args disk m e fs rm fuel).saveCalls = 0 := by
  have hcc := locs_cvs_invoked args disk m e fs rm fuel c hc
  exact locs_pipeline_fail args disk m e fs rm fuel (hcc ▸ hfail)

/-- C5: when the patterns resolve to no supported file, the indexing
pipeline exits nonzero before any remote call (no uploads, no vector
store creation, no batch submission, no sleeps), and the settings file
is left untouched with save_settings never called. -/
theorem no_files_found_no_remote_calls (args : Args) (disk : Option DiskFile)
    (m e : String) (fs : FS) (rm : Remote) (fuel : Nat)
    (hres : resolve_file_patterns fs args.files = [])
    (hfiles : args.files ≠ [])
    (hreidx : args.reindex = true)
    (hdisk : disk ≠ some DiskFile.corrupt) :
    create_vector_store fs rm args.files fuel =
      { uploadCalls := [], vsCreateCalls := 0, batchCreateCalls := 0,
        sleeps := [], result := .exitNonzero } ∧
    (load_or_create_settings args disk m e fs rm fuel).result = .exitNonzero ∧
    (load_or_create_settings args disk m e fs rm fuel).disk = disk ∧
    (load_or_create_settings args disk m e fs rm fuel).saveCalls = 0 := by
  have hcvs : create_vector_store fs rm args.files fuel =
      { uploadCalls := [], vsCreateCalls := 0, batchCreateCalls := 0,
        sleeps := [], result := .exitNonzero } := by
    unfold create_vector_store
    rw [hres]
    rfl
  refine ⟨hcvs, ?_⟩
  have hne : args.files.isEmpty = false := by
    cases hf : args.files with
    | nil => exact absurd hf hfiles
    | cons a l => rfl
  unfold load_or_create_settings
  rcases disk with _ | df
  · simp [load_settings, hreidx, hne, hcvs]
  · rcases df with d | _
    · simp [load_settings, hreidx, hne, hcvs]
    · exact absurd rfl hdisk

/-- C6: the batch polling loop sleeps a fixed 1 time unit between
status retrievals; for the status sequence pending, pending, completed
it blocks exactly twice (two sleeps of 1) before returning success;
and when the poll reaches the terminal failed status the pipeline
never succeeds, the settings file is unchanged and save_settings is
never called. -/
theorem poll_loop_behavior (status : Nat → String) (fuel : Nat) (args : Args)
    (disk : Option DiskFile) (m e : String) (fs : FS) (rm : Remote)
    (h0 : status 0 = "pending") (h1 : status 1 = "pending")
    (h2 : status 2 = "completed") (hfuel : 3 ≤ fuel) :
    pollLoop status fuel 0 = (some true, [1, 1]) ∧
    (∀ (st : Nat → String) (f k : Nat), ∀ n ∈ (pollLoop st f k).2, n = 1) ∧
    ((pollLoop rm.batchStatus fuel 0).1 = some false →
      (∀ v, (create_vector_store fs rm args.files fuel).result ≠ CVSResult.ok v) ∧
      (load_or_create_settings args disk m e fs rm fuel).disk = disk ∧
      (load_or_create_settings args disk m e fs rm fuel).saveCalls = 0) := by
  refine ⟨pollLoop_pending_pending_completed status fuel h0 h1 h2 hfuel,
    fun st => pollLoop_sleeps_one st, ?_⟩
  intro hfailed
  have hnotok : ∀ v, (create_vector_store fs rm args.files fuel).result ≠ CVSResult.ok v := by
    intro v hok
    rw [cvs_result_ok_poll fs rm args.files fuel v hok] at hfailed
    cases hfailed
  exact ⟨hnotok, locs_pipeline_fail args disk m e fs rm fuel hnotok⟩

/-! ### Settings-store load behavior (C3) -/

/-- C3 counterexample: an unparsable settings file does not load as the
empty settings; load_settings propagates the JSON decode error to the
caller (the process crashes with an uncaught exception). -/
theorem load_settings_corrupt_raises :
    load_settings (some DiskFile.corrupt) ≠ Except.ok ([] : Dict) ∧
    load_settings (some DiskFile.corrupt) = Except.error LoadErr.jsonDecodeError :=
  ⟨(fun h => nomatch h), rfl⟩

/-- C3 amended: a missing settings file loads as the empty settings
(triggering fresh indexing); a parsable record is returned as loaded;
an unparsable record makes json.load raise a decode error that
propagates to the caller instead of being treated as empty. -/
theorem load_settings_behavior :
    load_settings none = Except.ok ([] : Dict) ∧
    (∀ d : Dict, load_settings (some (DiskFile.valid d)) = Except.ok d) ∧
    load_settings (some DiskFile.corrupt) = Except.error LoadErr.jsonDecodeError :=
  ⟨rfl, fun _ => rfl, rfl⟩

/-! ### Dict update lemmas and the re-index write (C9) -/

theorem dget_dset_same (d : Dict) (k : String) (v : DVal) :
    dget (dset d k v) k = some v := by
  induction d with
  | nil => simp [dset, dget]
  | cons p rest ih =>
    obtain ⟨a, b⟩ := p
    by_cases h : a = k
    · simp [dset, dget, h]
    · simp [dset, dget, h, ih]

theorem dget_dset_other (d : Dict) (k kq : String) (v : DVal) (h : kq ≠ k) :
    dget (dset d k v) kq = dget d kq := by
  induction d with
  | nil => simp [dset, dget, Ne.symm h]
  | cons p rest ih =>
    obtain ⟨a, b⟩ := p
    by_cases ha : a = k
    · subst ha
      simp [dset, dget, Ne.symm h]
    · simp [dset, dget, ha, ih]

/-- C9 counterexample: a forced re-index over a pre-existing settings
record holding a key this program never writes saves a record that
still contains that key: the write is an update of the loaded record,
not a record holding only the freshly chosen session values. -/
theorem reindex_carries_extra_keys :
    (load_or_create_settings argsA diskLegacy "gpt-5" "medium" fsA rmOK 1).disk =
      some (DiskFile.valid
        [("legacy", DVal.str "x"), ("model", DVal.str "gpt-5"),
         ("reasoning_effort", DVal.str "medium"),
         ("file_patterns", DVal.strList ["a.md"]),
         ("vector_store_id", DVal.str "vs_1")]) ∧
    dget [("legacy", DVal.str "x"), ("model", DVal.str "gpt-5"),
         ("reasoning_effort", DVal.str "medium"),
         ("file_patterns", DVal.strList ["a.md"]),
         ("vector_store_id", DVal.str "vs_1")] "legacy" = some (DVal.str "x") :=
  ⟨rfl, rfl⟩

/-- C9 amended: on every re-index (forced, or because no truthy index
identifier is stored), when the indexing pipeline succeeds the saved
record is the loaded record updated with the four freshly chosen
session values: model, reasoning effort, file patterns and index
identifier are always freshly overwritten, while any other key of the
pre-existing record keeps its prior value. -/
theorem reindex_overwrites_session_keys (args : Args) (disk : Option DiskFile)
    (m e : String) (fs : FS) (rm : Remote) (fuel : Nat) (d : Dict) (vsid : String)
    (hload : load_settings disk = .ok d)
    (hsetup : args.reindex = true ∨ truthy (dget d "vector_store_id") = false)
    (hfiles : args.files ≠ [])
    (hok : (create_vector_store fs rm args.files fuel).result = CVSResult.ok vsid) :
    ∃ saved : Dict,
      (load_or_create_settings args disk m e fs rm fuel).disk =
        some (DiskFile.valid saved) ∧
      (load_or_create_settings args disk m e fs rm fuel).result = .ok saved ∧
      dget saved "model" = some (DVal.str m) ∧
      dget saved "reasoning_effort" = some (DVal.str e) ∧
      dget saved "file_patterns" = some (DVal.strList args.files) ∧
      dget saved "vector_store_id" = some (DVal.str vsid) ∧
      ∀ k : String, k ≠ "model" → k ≠ "reasoning_effort" →
        k ≠ "file_patterns" → k ≠ "vector_store_id" →
        dget saved k = dget d k := by
  have hne : args.files.isEmpty = false := by
    cases hf : args.files with
    | nil => exact absurd hf hfiles
    | cons a l => rfl
  have hns : (args.reindex || !truthy (dget d "vector_store_id")) = true := by
    rcases hsetup with h | h
    · simp [h]
    · simp [h]
  refine ⟨dset (dset (dset (dset d "model" (.str m)) "reasoning_effort" (.str e))
      "file_patterns" (.strList args.files)) "vector_store_id" (.str vsid),
    ?_, ?_, ?_, ?_, ?_, ?_, ?_⟩
  · simp [load_or_create_settings, hload, hns, hne, hok]
  · simp [load_or_create_settings, hload, hns, hne, hok]
  · rw [dget_dset_other _ _ _ _ (by decide), dget_dset_other _ _ _ _ (by decide),
      dget_dset_other _ _ _ _ (by decide), dget_dset_same]
  · rw [dget_dset_other _ _ _ _ (by decide), dget_dset_other _ _ _ _ (by decide),
      dget_dset_same]
  · rw [dget_dset_other _ _ _ _ (by decide), dget_dset_same]
  · rw [dget_dset_same]
  · intro k h1 h2 h3 h4
    rw [dget_dset_other _ _ _ _ h4, dget_dset_other _ _ _ _ h3,
      dget_dset_other _ _ _ _ h2, dget_dset_other _ _ _ _ h1]

/-! ### Witnesses at concrete inputs -/

/-- Witness for C2: a failing upload during a forced re-index leaves
the pre-existing settings record on disk untouched and save_settings
never runs. -/
theorem indexing_failure_settings_atomic_witness :
    (load_or_create_settings argsA diskLegacy "gpt-5" "medium" fsA rmFail 1).disk =
      diskLegacy ∧
    (load_or_create_settings argsA diskLegacy "gpt-5" "medium" fsA rmFail 1).saveCalls = 0 :=
  indexing_failure_settings_atomic argsA diskLegacy "gpt-5" "medium" fsA rmFail 1
    { uploadCalls := ["a.md"], vsCreateCalls := 0, batchCreateCalls := 0,
      sleeps := [], result := .raised }
    rfl (fun _ h => nomatch h)

/-- Witness for C5: the pattern missing.md resolves to no files, the
pipeline exits nonzero with no remote calls, and no settings are
written. -/
theorem no_files_found_no_remote_calls_witness :
    create_vector_store fsNone rmOK argsMissing.files 1 =
      { uploadCalls := [], vsCreateCalls := 0, batchCreateCalls := 0,
        sleeps := [], result := .exitNonzero } ∧
    (load_or_create_settings argsMissing none "gpt-5" "medium" fsNone rmOK 1).result =
      .exitNonzero ∧
    (load_or_create_settings argsMissing none "gpt-5" "medium" fsNone rmOK 1).disk = none ∧
    (load_or_create_settings argsMissing none "gpt-5" "medium" fsNone rmOK 1).saveCalls = 0 :=
  no_files_found_no_remote_calls argsMissing none "gpt-5" "medium" fsNone rmOK 1
    rfl (fun h => nomatch h) rfl (fun h => nomatch h)

/-- Witness for C6: on the status sequence pending, pending, completed
the polling loop returns success after exactly two sleeps of one time
unit. -/
theorem poll_loop_behavior_witness :
    pollLoop statusPPC 3 0 = (some true, [1, 1]) :=
  (poll_loop_behavior statusPPC 3 argsA none "gpt-5" "medium" fsA rmOK
    rfl rfl rfl (by decide)).1

/-- Witness for C9 (amended): a concrete forced re-index over a record
holding a legacy key saves the four fresh session values and keeps the
legacy key's prior value. -/
theorem reindex_overwrites_session_keys_witness :
    ∃ saved : Dict,
      (load_or_create_settings argsA diskLegacy "gpt-5" "medium" fsA rmOK 1).disk =
        some (DiskFile.valid saved) ∧
      (load_or_create_settings argsA diskLegacy "gpt-5" "medium" fsA rmOK 1).result =
        .ok saved ∧
      dget saved "model" = some (DVal.str "gpt-5") ∧
      dget saved "reasoning_effort" = some (DVal.str "medium") ∧
      dget saved "file_patterns" = some (DVal.strList ["a.md"]) ∧
      dget saved "vector_store_id" = some (DVal.str "vs_1") ∧
      ∀ k : String, k ≠ "model" → k ≠ "reasoning_effort" →
        k ≠ "file_patterns" → k ≠ "vector_store_id" →
        dget saved k = dget [("legacy", DVal.str "x")] k :=
  reindex_overwrites_session_keys argsA diskLegacy "gpt-5" "medium" fsA rmOK 1
    [("legacy", DVal.str "x")] "vs_1" rfl (Or.inl rfl) (fun h => nomatch h) rfl

end RagCli
